import Mathlib

/-!
Verification of the DGPERS eAssistant retrieval-and-answering core.

This file gives a shallow embedding, in Lean 4, of the Python code under
`src/backend/lambda_layers/custom_modules_layer`, and proves (or refutes)
the behavioural properties stated in the design specification.

Modelling conventions:
* Python dicts whose keys matter to the code are embedded as structures;
  dicts used as open string maps (`_source` of an OpenSearch hit, parsed
  JSON objects) are insertion-ordered association lists.
* Relevance scores (Python floats) are embedded as rationals `ℚ`; the
  literal `0.40` of the source is the exact rational `2/5`.
* Python exceptions are embedded with `Except PyErr`; an uncaught
  exception is an `Except.error`.
* External capabilities (the Bedrock LLM runtime, the OpenSearch client,
  `json.loads`) are passed in as explicit oracle functions, so theorems
  can quantify over every possible behaviour of the environment.
* Where a claim is about calls being made (or not made), the embedded
  orchestrator additionally returns an event trace recording, in order,
  every external step it performed.
-/

namespace EAssistant

/-- Kinds of Python exception that the embedded code paths can raise or
catch (`KeyError`, `IndexError`, `AttributeError`, `json.JSONDecodeError`,
`botocore ClientError` / `ParamValidationError`, `ValueError`). -/
inductive PyErr
  | keyError
  | indexError
  | attributeError
  | jsonDecodeError
  | clientError
  | paramValidationError
  | valueError
deriving DecidableEq, Repr

/-- A Python `dict` with string keys and string values, as an
insertion-ordered association list (models the `_source` map of an
OpenSearch hit). -/
abbrev Attrs := List (String × String)

/-- Python `d.get(k)` / `d[k]` lookup on an `Attrs` dict: the value bound
to the first occurrence of the key, if any. -/
def Attrs.get? (m : Attrs) (k : String) : Option String :=
  (m.find? (fun p => p.1 = k)).map (fun p => p.2)

/-- An OpenSearch hit (the `Dict` elements handled by the retriever, the
reranker and the context formatter): `id` models the `_id` field (read
with `d.get('_id')`, hence optional), `score` models `_score`, and
`source` models the `_source` attribute map. -/
structure Hit where
  id : Option String
  score : Option ℚ
  source : Attrs
deriving DecidableEq

/-- Loop body of `EpDocumentsRetriever.__get_distinct_values`: walk the
list keeping a `seen` set of `_id` values; a hit is appended to the output
iff its `_id` has not been seen before. -/
def getDistinctGo (seen : List (Option String)) : List Hit → List Hit
  | [] => []
  | d :: rest =>
    if d.id ∈ seen then getDistinctGo seen rest
    else d :: getDistinctGo (d.id :: seen) rest

/-- Embedding of `EpDocumentsRetriever.__get_distinct_values(lst)`: removes duplicate
documents based on their `_id` field, first occurrence winning. -/
def getDistinctValues (lst : List Hit) : List Hit :=
  getDistinctGo [] lst

/-- Modelled from the spec: "Merge: deduplicate by identity; first
occurrence in vector-then-lexical concatenation order wins."  Structural
first-occurrence-wins deduplication, to be compared with the code's
`getDistinctValues`. -/
def dedupFirstWins : List Hit → List Hit
  | [] => []
  | d :: rest => d :: dedupFirstWins (rest.filter (fun y => y.id ≠ d.id))
termination_by l => l.length
decreasing_by
  simp only [List.length_cons]
  exact Nat.lt_succ_of_le (List.length_filter_le _ _)

theorem getDistinctGo_sublist (l : List Hit) :
    ∀ seen, (getDistinctGo seen l).Sublist l := by
  induction l with
  | nil => intro seen; simp [getDistinctGo]
  | cons d rest ih =>
    intro seen
    simp only [getDistinctGo]
    split
    · exact (ih seen).cons d
    · exact (ih (d.id :: seen)).cons₂ d

theorem getDistinctGo_id_not_seen (l : List Hit) :
    ∀ seen i, i ∈ (getDistinctGo seen l).map Hit.id → i ∉ seen := by
  induction l with
  | nil => intro seen i h; simp [getDistinctGo] at h
  | cons d rest ih =>
    intro seen i h
    simp only [getDistinctGo] at h
    split at h
    · exact ih seen i h
    · simp only [List.map_cons, List.mem_cons] at h
      rcases h with h | h
      · subst h; assumption
      · intro hmem
        exact ih (d.id :: seen) i h (List.mem_cons_of_mem _ hmem)

theorem getDistinctGo_ids_nodup (l : List Hit) :
    ∀ seen, ((getDistinctGo seen l).map Hit.id).Nodup := by
  induction l with
  | nil => intro seen; simp [getDistinctGo]
  | cons d rest ih =>
    intro seen
    simp only [getDistinctGo]
    split
    · exact ih seen
    · simp only [List.map_cons, List.nodup_cons]
      refine ⟨fun hmem => ?_, ih (d.id :: seen)⟩
      exact getDistinctGo_id_not_seen rest (d.id :: seen) d.id hmem
        (List.mem_cons_self _ _)

theorem getDistinctGo_id_covered (l : List Hit) :
    ∀ seen d, d ∈ l → d.id ∈ seen ∨ d.id ∈ (getDistinctGo seen l).map Hit.id := by
  induction l with
  | nil => intro seen d h; cases h
  | cons x rest ih =>
    intro seen d h
    simp only [getDistinctGo]
    rcases List.mem_cons.mp h with rfl | h
    · split
      · exact Or.inl (by assumption)
      · exact Or.inr (by simp)
    · split
      · exact ih seen d h
      · rcases ih (x.id :: seen) d h with hs | hout
        · rcases List.mem_cons.mp hs with he | hs
          · exact Or.inr (by simp [he])
          · exact Or.inl hs
        · exact Or.inr (by simp [hout])

theorem getDistinctGo_eq_dedupFirstWins (l : List Hit) :
    ∀ seen, getDistinctGo seen l
      = dedupFirstWins (l.filter (fun y => y.id ∉ seen)) := by
  induction l with
  | nil => intro seen; simp [getDistinctGo, dedupFirstWins]
  | cons d rest ih =>
    intro seen
    simp only [getDistinctGo, List.filter_cons]
    by_cases hmem : d.id ∈ seen
    · rw [if_pos hmem]
      have hdec : (decide (d.id ∉ seen)) = false := by simp [hmem]
      simp only [hdec, Bool.false_eq_true, if_false]
      exact ih seen
    · rw [if_neg hmem]
      have hdec : (decide (d.id ∉ seen)) = true := by simp [hmem]
      simp only [hdec, if_true, dedupFirstWins]
      refine congrArg (d :: ·) ?_
      rw [ih (d.id :: seen), List.filter_filter]
      refine congrArg dedupFirstWins (List.filter_congr ?_)
      intro y _
      simp [List.mem_cons, not_or, and_comm]

/-- First vector hit of the specification's Scenario A: id A, score 0.9. -/
def hitA : Hit := ⟨some "A", some (mkRat 9 10), [("source", "docA")]⟩

/-- Second vector hit of Scenario A: id B, score 0.8. -/
def hitB : Hit := ⟨some "B", some (mkRat 8 10), [("source", "docB")]⟩

/-- Third vector hit of Scenario A: id C, score 0.7. -/
def hitC : Hit := ⟨some "C", some (mkRat 7 10), [("source", "docC")]⟩

/-- First lexical hit of Scenario A: id C again (a duplicate identity),
score 5.0. -/
def hitClex : Hit := ⟨some "C", some (5 : ℚ), [("source", "docC")]⟩

/-- Second lexical hit of Scenario A: id D, score 4.0. -/
def hitD : Hit := ⟨some "D", some (4 : ℚ), [("source", "docD")]⟩

/-- The vector hits of the specification's Scenario A. -/
def exVec : List Hit := [hitA, hitB, hitC]

/-- The lexical hits of the specification's Scenario A. -/
def exLex : List Hit := [hitClex, hitD]

/-- C1: merging concatenates vector hits before lexical hits and
deduplicates by `_id` with the first occurrence winning: the output
equals the structural first-occurrence-wins deduplication of the
concatenation, its ids are pairwise distinct, it is a sublist of the
concatenation (so relative order is preserved and vector hits come first),
every identity of the input survives, and on the concrete Scenario A
input (vector ids A,B,C plus lexical ids C,D) the output ids are exactly
A,B,C,D. -/
theorem C1_merge_dedup_first_wins (vec lex : List Hit) :
    getDistinctValues (vec ++ lex) = dedupFirstWins (vec ++ lex)
    ∧ ((getDistinctValues (vec ++ lex)).map Hit.id).Nodup
    ∧ (getDistinctValues (vec ++ lex)).Sublist (vec ++ lex)
    ∧ (∀ d ∈ vec ++ lex, d.id ∈ (getDistinctValues (vec ++ lex)).map Hit.id)
    ∧ (getDistinctValues (exVec ++ exLex)).map Hit.id
        = [some "A", some "B", some "C", some "D"] := by
  refine ⟨?_, getDistinctGo_ids_nodup _ [], getDistinctGo_sublist _ [], ?_, by decide⟩
  · have h := getDistinctGo_eq_dedupFirstWins (vec ++ lex) []
    simpa [getDistinctValues] using h
  · intro d hd
    rcases getDistinctGo_id_covered (vec ++ lex) [] d hd with hs | hout
    · cases hs
    · exact hout

theorem C1_merge_dedup_first_wins_witness :
    getDistinctValues (exVec ++ exLex) = dedupFirstWins (exVec ++ exLex)
    ∧ (some "A") ∈ (getDistinctValues (exVec ++ exLex)).map Hit.id :=
  ⟨(C1_merge_dedup_first_wins exVec exLex).1,
   (C1_merge_dedup_first_wins exVec exLex).2.2.2.1 hitA
     (by simp [exVec])⟩

/-- One entry of the reranking model's response body
(`{"index": i, "relevance_score": s}`).  The score is optional because
the code reads it both via `.get("relevance_score", 0)` (top entry) and
via direct indexing (every entry, `KeyError` when absent). -/
structure RerankEntry where
  index : Nat
  relevance_score : Option ℚ
deriving DecidableEq

/-- Parsed body of the reranking model's response: its `"results"` list. -/
structure RerankResponse where
  results : List RerankEntry
deriving DecidableEq

/-- The cutoff `threshold = top_score * 0.40` of `ReRanker.rerank_results` (the float
literal `0.40` is the exact rational `2/5`). -/
def threshold (top_score : ℚ) : ℚ := top_score * (2/5)

/-- The extraction `documents = [hit["_source"]["AMAZON_BEDROCK_TEXT_CHUNK"] for hit in
results]`: direct dict indexing raises `KeyError` when the chunk field is
absent from a hit's `_source`. -/
def extractDocuments : List Hit → Except PyErr (List String)
  | [] => .ok []
  | h :: rest =>
    match h.source.get? "AMAZON_BEDROCK_TEXT_CHUNK" with
    | none => .error .keyError
    | some t => (extractDocuments rest).map (fun ts => t :: ts)

/-- The read `top_score = response_body["results"][0].get("relevance_score", 0)`:
`[0]` raises `IndexError` on an empty results list; a missing score field
on the first entry defaults to `0`. -/
def topScore (entries : List RerankEntry) : Except PyErr ℚ :=
  match entries.head? with
  | some e => .ok (e.relevance_score.getD 0)
  | none => .error .indexError

/-- The comprehension `matching_indices = [result["index"] for result in results if
result["relevance_score"] > threshold]`: the direct score access raises
`KeyError` for any entry missing it (the access happens before the
comparison); otherwise the indices of entries scoring strictly above the
threshold are kept, in response order. -/
def matchingIndices (thr : ℚ) : List RerankEntry → Except PyErr (List Nat)
  | [] => .ok []
  | e :: rest =>
    match e.relevance_score with
    | none => .error .keyError
    | some s =>
      (matchingIndices thr rest).map
        (fun tail => if thr < s then e.index :: tail else tail)

/-- The selection `reranked_results = [results[i] for i in matching_indices]`:
positional indexing into the original hit list, `IndexError` when a
reported index is out of range. -/
def selectByIndices (results : List Hit) : List Nat → Except PyErr (List Hit)
  | [] => .ok []
  | i :: rest =>
    match results.get? i with
    | none => .error .indexError
    | some h => (selectByIndices results rest).map (fun hs => h :: hs)

/-- Embedding of `ReRanker.rerank_results(query, results, model_id)`.  `model` is the
external Bedrock reranking capability (`invoke_model` plus the JSON
decode of its body), applied to the query and the extracted chunk texts.
An empty input list short-circuits to `[]` before any model use. -/
def rerankResults (model : String → List String → Except PyErr RerankResponse)
    (query : String) (results : List Hit) : Except PyErr (List Hit) :=
  if results.isEmpty then .ok []
  else
    match extractDocuments results with
    | .error e => .error e
    | .ok documents =>
      match model query documents with
      | .error e => .error e
      | .ok rb =>
        match topScore rb.results with
        | .error e => .error e
        | .ok t =>
          match matchingIndices (threshold t) rb.results with
          | .error e => .error e
          | .ok idxs => selectByIndices results idxs

theorem matchingIndices_ok_char (thr : ℚ) (entries : List RerankEntry) :
    ∀ idxs, matchingIndices thr entries = .ok idxs →
      idxs = (entries.filter
        (fun e => decide (thr < e.relevance_score.getD 0))).map RerankEntry.index := by
  induction entries with
  | nil => intro idxs h; simp only [matchingIndices] at h; cases h; simp
  | cons e rest ih =>
    intro idxs h
    simp only [matchingIndices] at h
    cases hs : e.relevance_score with
    | none => rw [hs] at h; cases h
    | some s =>
      rw [hs] at h
      cases hrec : matchingIndices thr rest with
      | error er => rw [hrec] at h; simp [Except.map] at h
      | ok tail =>
        rw [hrec] at h
        simp only [Except.map, Except.ok.injEq] at h
        subst h
        have hgd : e.relevance_score.getD 0 = s := by rw [hs]; rfl
        by_cases hlt : thr < s
        · rw [if_pos hlt, ih tail hrec,
            List.filter_cons_of_pos (by simp [hgd, hlt]), List.map_cons]
        · rw [if_neg hlt, ih tail hrec,
            List.filter_cons_of_neg (by simp [hgd, hlt])]

theorem matchingIndices_eq_of_scores (thr : ℚ) (entries : List RerankEntry)
    (hall : ∀ e ∈ entries, e.relevance_score ≠ none) :
    matchingIndices thr entries = .ok ((entries.filter
      (fun e => decide (thr < e.relevance_score.getD 0))).map RerankEntry.index) := by
  induction entries with
  | nil => simp [matchingIndices]
  | cons e rest ih =>
    simp only [matchingIndices]
    cases hs : e.relevance_score with
    | none => exact absurd hs (hall e (List.mem_cons_self _ _))
    | some s =>
      rw [ih (fun x hx => hall x (List.mem_cons_of_mem _ hx))]
      simp only [Except.map, List.filter_cons, hs, Option.getD_some]
      by_cases hlt : thr < s
      · simp [hlt]
      · simp [hlt]

theorem selectByIndices_ok_mem (results : List Hit) (idxs : List Nat) :
    ∀ out, selectByIndices results idxs = .ok out → ∀ h ∈ out, h ∈ results := by
  induction idxs with
  | nil => intro out hok h hmem; simp only [selectByIndices] at hok; cases hok; cases hmem
  | cons i rest ih =>
    intro out hok h hmem
    simp only [selectByIndices] at hok
    cases hget : results.get? i with
    | none => rw [hget] at hok; cases hok
    | some x =>
      rw [hget] at hok
      cases hrec : selectByIndices results rest with
      | error er => rw [hrec] at hok; simp [Except.map] at hok
      | ok tail =>
        rw [hrec] at hok
        simp only [Except.map, Except.ok.injEq] at hok
        subst hok
        rcases List.mem_cons.mp hmem with rfl | hmem
        · exact List.get?_mem hget
        · exact ih tail hrec h hmem

theorem selectByIndices_ok_length (results : List Hit) (idxs : List Nat) :
    ∀ out, selectByIndices results idxs = .ok out → out.length = idxs.length := by
  induction idxs with
  | nil => intro out hok; simp only [selectByIndices] at hok; cases hok; rfl
  | cons i rest ih =>
    intro out hok
    simp only [selectByIndices] at hok
    cases hget : results.get? i with
    | none => rw [hget] at hok; cases hok
    | some x =>
      rw [hget] at hok
      cases hrec : selectByIndices results rest with
      | error er => rw [hrec] at hok; simp [Except.map] at hok
      | ok tail =>
        rw [hrec] at hok
        simp only [Except.map, Except.ok.injEq] at hok
        subst hok
        simp [ih tail hrec]

theorem selectByIndices_ok_bound (results : List Hit) (idxs : List Nat) :
    ∀ out, selectByIndices results idxs = .ok out → ∀ i ∈ idxs, i < results.length := by
  induction idxs with
  | nil => intro out _ i hmem; cases hmem
  | cons j rest ih =>
    intro out hok i hmem
    simp only [selectByIndices] at hok
    cases hget : results.get? j with
    | none => rw [hget] at hok; cases hok
    | some x =>
      rw [hget] at hok
      cases hrec : selectByIndices results rest with
      | error er => rw [hrec] at hok; simp [Except.map] at hok
      | ok tail =>
        rcases List.mem_cons.mp hmem with rfl | hmem
        · exact (List.get?_eq_some.mp hget).1
        · exact ih tail hrec i hmem

theorem rerankResults_ok_cases
    (model : String → List String → Except PyErr RerankResponse)
    (query : String) (results out : List Hit)
    (hok : rerankResults model query results = .ok out) :
    (results = [] ∧ out = []) ∨
    ∃ docs rb t idxs,
      extractDocuments results = .ok docs ∧ model query docs = .ok rb ∧
      topScore rb.results = .ok t ∧
      matchingIndices (threshold t) rb.results = .ok idxs ∧
      selectByIndices results idxs = .ok out := by
  unfold rerankResults at hok
  by_cases hemp : results.isEmpty
  · left
    rw [if_pos hemp] at hok
    cases hok
    exact ⟨List.isEmpty_iff.mp hemp, rfl⟩
  · right
    rw [if_neg hemp] at hok
    split at hok
    · cases hok
    · rename_i docs hdocs
      split at hok
      · cases hok
      · rename_i rb hmodel
        split at hok
        · cases hok
        · rename_i t htop
          split at hok
          · cases hok
          · rename_i idxs hmatch
            exact ⟨docs, rb, t, idxs, hdocs, hmodel, htop, hmatch, hok⟩

theorem rerankResults_eq_of
    (model : String → List String → Except PyErr RerankResponse)
    (query : String) (results : List Hit) (docs : List String)
    (rb : RerankResponse) (t : ℚ) (idxs : List Nat)
    (hne : results ≠ [])
    (hdocs : extractDocuments results = .ok docs)
    (hmodel : model query docs = .ok rb)
    (htop : topScore rb.results = .ok t)
    (hmatch : matchingIndices (threshold t) rb.results = .ok idxs) :
    rerankResults model query results = selectByIndices results idxs := by
  unfold rerankResults
  have hval : results.isEmpty = false := by
    cases results with
    | nil => exact absurd rfl hne
    | cons a l => rfl
  simp only [hval, Bool.false_eq_true, if_false, hdocs, hmodel, htop, hmatch]

/-- C3: in `rerank_results`, for a fixed document set, the cutoff equals
0.40 × the top relevance score, so it scales proportionally (and
monotonically) with the top score; exactly the response entries whose
score strictly exceeds the cutoff are kept; and an entry whose score is
exactly 0.4 × the top score is excluded by the strict comparison. -/
theorem C3_rerank_threshold
    (model : String → List String → Except PyErr RerankResponse)
    (query : String) (results : List Hit) (docs : List String)
    (e0 : RerankEntry) (rest : List RerankEntry) (rb : RerankResponse) (t : ℚ)
    (hne : results ≠ [])
    (hdocs : extractDocuments results = .ok docs)
    (hmodel : model query docs = .ok rb)
    (hrb : rb.results = e0 :: rest)
    (ht : t = e0.relevance_score.getD 0) :
    threshold t = t * (2/5)
    ∧ (∀ c : ℚ, threshold (c * t) = c * threshold t)
    ∧ (∀ t' : ℚ, t ≤ t' → threshold t ≤ threshold t')
    ∧ topScore rb.results = .ok t
    ∧ (∀ idxs, matchingIndices (threshold t) rb.results = .ok idxs →
        rerankResults model query results = selectByIndices results idxs
        ∧ idxs = (rb.results.filter
            (fun e => decide (threshold t < e.relevance_score.getD 0))).map RerankEntry.index)
    ∧ (∀ e : RerankEntry, e.relevance_score = some (threshold t) →
        e ∉ rb.results.filter (fun e => decide (threshold t < e.relevance_score.getD 0))) := by
  have htop : topScore rb.results = .ok t := by
    rw [hrb, topScore]; simp [ht]
  refine ⟨rfl, ?_, ?_, htop, ?_, ?_⟩
  · intro c; unfold threshold; ring
  · intro t' h
    unfold threshold
    have h25 : (0 : ℚ) ≤ 2/5 := by norm_num
    exact mul_le_mul_of_nonneg_right h h25
  · intro idxs hmatch
    exact ⟨rerankResults_eq_of model query results docs rb t idxs hne hdocs
      hmodel htop hmatch,
      matchingIndices_ok_char (threshold t) rb.results idxs hmatch⟩
  · intro e he hmem
    have := List.of_mem_filter hmem
    rw [he] at this
    simp only [Option.getD_some, decide_eq_true_eq] at this
    exact lt_irrefl _ this

/-- C7: whenever `rerank_results` returns a result, every output document
is one of the input documents and the output is no longer than the input
(under the reranking-model contract that a response lists each document
position at most once); and on an empty input list it returns `[]` for
every possible model behaviour, i.e. without consulting the model. -/
theorem C7_rerank_never_grows
    (model : String → List String → Except PyErr RerankResponse)
    (query : String) (results out : List Hit)
    (hwf : ∀ q docs rb, model q docs = .ok rb →
      (rb.results.map RerankEntry.index).Nodup)
    (hok : rerankResults model query results = .ok out) :
    (∀ h ∈ out, h ∈ results) ∧ out.length ≤ results.length
    ∧ (∀ (other : String → List String → Except PyErr RerankResponse)
        (q : String), rerankResults other q [] = .ok []) := by
  rcases rerankResults_ok_cases model query results out hok with
    ⟨hres, hout⟩ | ⟨docs, rb, t, idxs, hdocs, hmodel, htop, hmatch, hsel⟩
  · subst hres; subst hout
    exact ⟨fun h hm => absurd hm (List.not_mem_nil h), le_refl 0, fun _ _ => rfl⟩
  · refine ⟨selectByIndices_ok_mem results idxs out hsel, ?_, fun _ _ => rfl⟩
    have hlen := selectByIndices_ok_length results idxs out hsel
    have hbound := selectByIndices_ok_bound results idxs out hsel
    have hchar := matchingIndices_ok_char (threshold t) rb.results idxs hmatch
    have hsub : idxs.Sublist (rb.results.map RerankEntry.index) := by
      rw [hchar]
      exact (List.filter_sublist rb.results).map RerankEntry.index
    have hnd : idxs.Nodup := hsub.nodup (hwf query docs rb hmodel)
    have h1 : idxs.toFinset ⊆ Finset.range results.length := by
      intro i hi
      simp only [List.mem_toFinset] at hi
      exact Finset.mem_range.mpr (hbound i hi)
    have h2 := Finset.card_le_card h1
    rw [List.toFinset_card_of_nodup hnd, Finset.card_range] at h2
    rw [hlen]; exact h2

theorem C7_rerank_never_grows_witness :
    (∀ h ∈ ([] : List Hit), h ∈ ([] : List Hit))
    ∧ ([] : List Hit).length ≤ ([] : List Hit).length
    ∧ (∀ (other : String → List String → Except PyErr RerankResponse)
        (q : String), rerankResults other q [] = .ok []) :=
  C7_rerank_never_grows (fun _ _ => .error .clientError) "q" [] []
    (fun _ _ _ h => by cases h) rfl

/-- A minimal hit carrying a chunk text, used for concrete rerank runs. -/
def hitChunk : Hit := ⟨some "X", none, [("AMAZON_BEDROCK_TEXT_CHUNK", "text")]⟩

/-- Reranking-model oracle replying with a single entry: index 0,
relevance score 1. -/
def modelOne : String → List String → Except PyErr RerankResponse :=
  fun _ _ => .ok ⟨[⟨0, some 1⟩]⟩

theorem C3_rerank_threshold_witness :
    threshold 1 = (1 : ℚ) * (2/5)
    ∧ topScore [⟨0, some 1⟩] = .ok 1 :=
  ⟨(C3_rerank_threshold modelOne "q" [hitChunk] ["text"] ⟨0, some 1⟩ []
      ⟨[⟨0, some 1⟩]⟩ 1 (List.cons_ne_nil _ _) rfl rfl rfl rfl).1,
   (C3_rerank_threshold modelOne "q" [hitChunk] ["text"] ⟨0, some 1⟩ []
      ⟨[⟨0, some 1⟩]⟩ 1 (List.cons_ne_nil _ _) rfl rfl rfl rfl).2.2.2.1⟩

/-- Reranking-model oracle for the C10 counterexample: a single entry
whose `relevance_score` field is absent. -/
def modelNoScore : String → List String → Except PyErr RerankResponse :=
  fun _ _ => .ok ⟨[⟨0, none⟩]⟩

/-- C10 counterexample: on a non-empty input whose model response omits
the `relevance_score` field (the claim's "absent and defaults to 0"
case), `rerank_results` raises `KeyError` — the list comprehension
indexes `result["relevance_score"]` directly — instead of returning the
empty list the claim promises. -/
theorem C10_counterexample_missing_score :
    rerankResults modelNoScore "q" [hitChunk] = .error PyErr.keyError
    ∧ rerankResults modelNoScore "q" [hitChunk] ≠ .ok [] := by
  constructor
  · rfl
  · intro h
    rw [show rerankResults modelNoScore "q" [hitChunk] = .error PyErr.keyError
      from rfl] at h
    cases h

/-- C10 (amended): for a non-empty result list, when every entry of the
model response carries a `relevance_score`, the first (top-ranked) entry
scores highest, and that top score is ≤ 0, the strict comparison against
`threshold = topScore * 0.40` excludes every document — including the
top-ranked one — and `rerank_results` returns the empty list.  (When the
score field is absent the call raises `KeyError` instead; see the
counterexample.) -/
theorem C10_amended_nonpositive_top_empties
    (model : String → List String → Except PyErr RerankResponse)
    (query : String) (results : List Hit) (docs : List String)
    (e0 : RerankEntry) (rest : List RerankEntry) (rb : RerankResponse)
    (hne : results ≠ [])
    (hdocs : extractDocuments results = .ok docs)
    (hmodel : model query docs = .ok rb)
    (hrb : rb.results = e0 :: rest)
    (hall : ∀ e ∈ rb.results, e.relevance_score ≠ none)
    (hmax : ∀ e ∈ rb.results,
      e.relevance_score.getD 0 ≤ e0.relevance_score.getD 0)
    (htop : e0.relevance_score.getD 0 ≤ 0) :
    rerankResults model query results = .ok [] := by
  have htopok : topScore rb.results = .ok (e0.relevance_score.getD 0) := by
    rw [hrb, topScore]; simp
  have hfilter : rb.results.filter
      (fun e => decide (threshold (e0.relevance_score.getD 0)
        < e.relevance_score.getD 0)) = [] := by
    rw [List.filter_eq_nil_iff]
    intro e he
    have h1 : e.relevance_score.getD 0 ≤ e0.relevance_score.getD 0 := hmax e he
    have h2 : e0.relevance_score.getD 0
        ≤ threshold (e0.relevance_score.getD 0) := by
      unfold threshold; nlinarith
    simp only [decide_eq_true_eq, not_lt]
    exact le_trans h1 h2
  have hmatch := matchingIndices_eq_of_scores
    (threshold (e0.relevance_score.getD 0)) rb.results hall
  rw [hfilter] at hmatch
  simp only [List.map_nil] at hmatch
  have heq := rerankResults_eq_of model query results docs rb
    (e0.relevance_score.getD 0) [] hne hdocs hmodel htopok hmatch
  rw [heq]; rfl

/-- Reranking-model oracle for the amended-C10 witness: a single entry
with relevance score 0. -/
def modelZero : String → List String → Except PyErr RerankResponse :=
  fun _ _ => .ok ⟨[⟨0, some 0⟩]⟩

theorem C10_amended_nonpositive_top_empties_witness :
    rerankResults modelZero "q" [hitChunk] = .ok [] :=
  C10_amended_nonpositive_top_empties modelZero "q" [hitChunk] ["text"]
    ⟨0, some 0⟩ [] ⟨[⟨0, some 0⟩]⟩ (List.cons_ne_nil _ _) rfl rfl rfl
    (by intro e he; simp only [List.mem_singleton] at he; subst he; simp)
    (by intro e he; simp only [List.mem_singleton] at he; subst he; exact le_refl _)
    (le_refl _)

/-- A JSON value of the shapes this code reads out of decoded LLM
answers: a string or an array of strings. -/
inductive JVal
  | s (v : String)
  | arr (v : List String)
deriving DecidableEq

/-- A parsed JSON object (`json.loads` result): insertion-ordered
key/value pairs. -/
abbrev JObj := List (String × JVal)

/-- Python `obj.get(k)` on a parsed JSON object. -/
def JObj.get? (o : JObj) (k : String) : Option JVal :=
  (o.find? (fun p => p.1 = k)).map (fun p => p.2)

/-- One element of a Claude answer's `content` list; its `text` field is
read with `.get('text', ...)`, hence optional. -/
structure ContentBlock where
  text : Option String
deriving DecidableEq

/-- A decoded LLM answer body, reduced to its `content` list
(`llm_answer.get("content", [])` makes a missing key and an empty list
indistinguishable to this code). -/
structure LLMAnswer where
  content : List ContentBlock
deriving DecidableEq

/-- The `QueryIntent` dataclass of `query_analyzer.py`; the fields store
whatever JSON values `.get` returned, without type checks. -/
structure QueryIntent where
  intent : JVal
  reformulated_query : JVal
deriving DecidableEq

/-- The `QueryElements` dataclass of `query_analyzer.py`. -/
structure QueryElements where
  query_target_type : JVal
  inferred_instructions : JVal
  search_elements : JVal
deriving DecidableEq

/-- The `try` block of `QueryAnalyzer.get_query_intent`: invoke the LLM
(`invoke` models `build_request_body("get_query_intent", [query])` plus
`BedrockHelper.invoke_model`, as a function of the query), read the first
content block's text (defaulting to the empty-object literal), decode it
with `jloads` (modelling `json.loads`) and build the `QueryIntent` from
the decoded fields. -/
def getQueryIntentTry (jloads : String → Except PyErr JObj)
    (invoke : String → Except PyErr LLMAnswer) (query : String) :
    Except PyErr QueryIntent :=
  match invoke query with
  | .error e => .error e
  | .ok llm_answer =>
    let parsed : Except PyErr JObj :=
      match llm_answer.content.head? with
      | some block => jloads (block.text.getD "\x7b\x7d")
      | none => .ok []
    match parsed with
    | .error e => .error e
    | .ok json_text =>
      .ok ⟨(json_text.get? "intent").getD (.s "undefined"),
           (json_text.get? "reformulated_query").getD (.s "undefined")⟩

/-- Embedding of `QueryAnalyzer.get_query_intent(query)`: only `json.JSONDecodeError`
is caught (the method then returns `None`); any other exception
propagates to the caller. -/
def getQueryIntent (jloads : String → Except PyErr JObj)
    (invoke : String → Except PyErr LLMAnswer) (query : String) :
    Except PyErr (Option QueryIntent) :=
  match getQueryIntentTry jloads invoke query with
  | .error .jsonDecodeError => .ok none
  | .error e => .error e
  | .ok qi => .ok (some qi)

/-- The `try` block of `QueryAnalyzer.analyze_query` (same request shape
as `get_query_intent`, with the `analyze_query` prompt and the
`QueryElements` fields). -/
def analyzeQueryTry (jloads : String → Except PyErr JObj)
    (invoke : String → Except PyErr LLMAnswer) (query : String) :
    Except PyErr QueryElements :=
  match invoke query with
  | .error e => .error e
  | .ok llm_answer =>
    let parsed : Except PyErr JObj :=
      match llm_answer.content.head? with
      | some block => jloads (block.text.getD "\x7b\x7d")
      | none => .ok []
    match parsed with
    | .error e => .error e
    | .ok json_text =>
      .ok ⟨(json_text.get? "query_target_type").getD (.s "undefined"),
           (json_text.get? "inferred_instructions").getD (.s "undefined"),
           (json_text.get? "search_elements").getD (.arr [])⟩

/-- Embedding of `QueryAnalyzer.analyze_query(query, prompt_template)`: catches
`json.JSONDecodeError` and returns `None`; other exceptions propagate. -/
def analyzeQuery (jloads : String → Except PyErr JObj)
    (invoke : String → Except PyErr LLMAnswer) (query : String) :
    Except PyErr (Option QueryElements) :=
  match analyzeQueryTry jloads invoke query with
  | .error .jsonDecodeError => .ok none
  | .error e => .error e
  | .ok qe => .ok (some qe)

/-- Python `", ".join(x)` as applied by `preprocess_query`: joins a list
of strings; applied to a plain string (the wrong-typed JSON case) it
joins the string's characters. -/
def joinComma : JVal → String
  | .arr xs => String.intercalate ", " xs
  | .s v => String.intercalate ", " (v.data.map (fun c => String.mk [c]))

/-- Embedding of `OpensearchDocumentsRetriever.preprocess_query(query)`: extract
keywords via `analyze_query`; a `None` analysis result falls back to the
original query text. -/
def preprocessQuery (jloads : String → Except PyErr JObj)
    (invoke : String → Except PyErr LLMAnswer) (query : String) :
    Except PyErr String :=
  match analyzeQuery jloads invoke query with
  | .error e => .error e
  | .ok none => .ok query
  | .ok (some query_elements) => .ok (joinComma query_elements.search_elements)

/-- The `ai` section of the cached configuration, restricted to the
guardrail settings `is_query_allowed` reads (`none` models an absent
key, read with `.get(..., default)`). -/
structure AiConfig where
  bedrock_guardrail_id : Option String
  bedrock_guardrail_version : Option String
deriving DecidableEq

/-- Decoded moderation response body: its vendor action field
`amazon-bedrock-guardrailAction` (absent when the vendor omits it). -/
structure ModerationResponse where
  guardrailAction : Option String
deriving DecidableEq

/-- Embedding of `QueryAnalyzer.is_query_allowed(query)`: permissive when no guardrail
id is configured (the `.get` default sentinel "not_found"); otherwise
submits the query (`invokeResp` models `invoke_model_response` plus the
`json.loads` of its body, as a function of query, guardrail id and
guardrail version) and returns `false` iff the action field equals
"INTERVENED". -/
def isQueryAllowed (ai : AiConfig)
    (invokeResp : String → String → String → Except PyErr ModerationResponse)
    (query : String) : Except PyErr Bool :=
  let guardrail_id := ai.bedrock_guardrail_id.getD "not_found"
  if guardrail_id = "not_found" then .ok true
  else
    let guardrail_version := ai.bedrock_guardrail_version.getD "DRAFT"
    match invokeResp query guardrail_id guardrail_version with
    | .error e => .error e
    | .ok resp => .ok (decide (resp.guardrailAction ≠ some "INTERVENED"))

/-- C6: `is_query_allowed` returns `true` unconditionally when no
guardrail identifier is configured (the sentinel "not_found" marks the
absent key); with a guardrail configured it returns `false` iff the
vendor action field of the moderation response equals "INTERVENED", and
returns `true` for every other value (including an absent field). -/
theorem C6_is_query_allowed_guardrail (ai : AiConfig)
    (invokeResp : String → String → String → Except PyErr ModerationResponse)
    (query : String) :
    (ai.bedrock_guardrail_id.getD "not_found" = "not_found" →
      isQueryAllowed ai invokeResp query = .ok true)
    ∧ (∀ gid, ai.bedrock_guardrail_id = some gid → gid ≠ "not_found" →
        ∀ resp, invokeResp query gid
            (ai.bedrock_guardrail_version.getD "DRAFT") = .ok resp →
          (isQueryAllowed ai invokeResp query = .ok false ↔
            resp.guardrailAction = some "INTERVENED")
          ∧ (resp.guardrailAction ≠ some "INTERVENED" →
              isQueryAllowed ai invokeResp query = .ok true)) := by
  constructor
  · intro h
    unfold isQueryAllowed
    rw [if_pos h]
  · intro gid hgid hne resp hresp
    have hid : ai.bedrock_guardrail_id.getD "not_found" = gid := by
      rw [hgid]; rfl
    have hallowed : isQueryAllowed ai invokeResp query
        = .ok (decide (resp.guardrailAction ≠ some "INTERVENED")) := by
      unfold isQueryAllowed
      rw [hid, if_neg hne]
      simp only [hresp]
    constructor
    · rw [hallowed]
      constructor
      · intro h
        have := Except.ok.inj h
        simpa using this
      · intro h
        simp [h]
    · intro h
      rw [hallowed]
      simp [h]

/-- Moderation oracle that always reports an intervention. -/
def guardrailIntervened :
    String → String → String → Except PyErr ModerationResponse :=
  fun _ _ _ => .ok ⟨some "INTERVENED"⟩

/-- A configuration with a guardrail id set. -/
def aiGuarded : AiConfig := ⟨some "g", some "DRAFT"⟩

/-- A configuration with no guardrail id. -/
def aiUnguarded : AiConfig := ⟨none, none⟩

theorem C6_is_query_allowed_guardrail_witness :
    isQueryAllowed aiUnguarded guardrailIntervened "hi" = .ok true
    ∧ isQueryAllowed aiGuarded guardrailIntervened "hi" = .ok false :=
  ⟨(C6_is_query_allowed_guardrail aiUnguarded guardrailIntervened "hi").1 rfl,
   ((C6_is_query_allowed_guardrail aiGuarded guardrailIntervened "hi").2
      "g" rfl (by decide) ⟨some "INTERVENED"⟩ rfl).1.mpr rfl⟩

/-- Python dict update `source[k] = v` on an insertion-ordered dict: an
existing key keeps its position, a new key appends. -/
def Attrs.set (m : Attrs) (k v : String) : Attrs :=
  if m.any (fun p => p.1 = k) then
    m.map (fun p => if p.1 = k then (k, v) else p)
  else m ++ [(k, v)]

/-- Python `del source[k]`. -/
def Attrs.del (m : Attrs) (k : String) : Attrs :=
  m.filter (fun p => p.1 ≠ k)

/-- Loop of `ClaudeContextFormatter.apply_aliases`: rename each aliased
field of `_source` in turn (`source[alias] = value` then `del
source[name]`); a missing field raises `KeyError`, modelled as `none`. -/
def applyAliasesGo (source : Attrs) : List (String × String) → Option Attrs
  | [] => some source
  | (nm, al) :: rest =>
    match source.get? nm with
    | none => none
    | some v => applyAliasesGo ((source.set al v).del nm) rest

/-- Embedding of `ClaudeContextFormatter.apply_aliases(document, aliases)`: on a
`KeyError` the method reverts to (and returns) the original `_source`. -/
def applyAliases (source : Attrs) (aliases : List (String × String)) : Attrs :=
  (applyAliasesGo source aliases).getD source

/-- Embedding of `ClaudeContextFormatter.replace_metadata_keys(documents)`.
`aliasesCfg` is `config["aoss"]["ndx_custom_field_aliases"]`; `none`
models the `KeyError` of a missing configuration entry, which (like an
empty alias list) returns the documents unchanged. -/
def replaceMetadataKeys (aliasesCfg : Option (List (String × String)))
    (documents : List Hit) : List Hit :=
  match aliasesCfg with
  | none => documents
  | some [] => documents
  | some aliases =>
    documents.map (fun d => { d with source := applyAliases d.source aliases })

/-- Python `char.isprintable()`, modelled exactly on the Basic Latin and
Latin-1 control ranges: C0 controls, DEL and C1 controls are not
printable, every other character is treated as printable. -/
def pyIsPrintable (c : Char) : Bool :=
  !(c.toNat < 0x20 || (0x7f ≤ c.toNat && c.toNat ≤ 0x9f))

/-- Embedding of `ep_nlp.utils.remove_non_printable(input_string)`: keeps only the
printable characters. -/
def removeNonPrintable (s : String) : String :=
  ⟨s.data.filter pyIsPrintable⟩

/-- Python `str.replace(old, new)` for the two single-character patterns
`format_context` uses: character-by-character substitution. -/
def replaceChar (s : String) (old new : Char) : String :=
  ⟨s.data.map (fun c => if c = old then new else c)⟩

/-- The `<document>` block loop of `format_context` (`count` is the
0-based `enumerate` counter, the emitted id is `count+1`);
`document["_source"]["source"]` raises `KeyError` when the excerpt field
is absent. -/
def formatBlocks (count : Nat) : List Hit → Except PyErr String
  | [] => .ok ""
  | d :: rest =>
    match d.source.get? "source" with
    | none => .error .keyError
    | some document_excerpt =>
      (formatBlocks (count + 1) rest).map
        (fun tail =>
          "<document><document_id>" ++ toString (count + 1)
            ++ "</document_id><document_excerpt>" ++ document_excerpt
            ++ "</document_excerpt></document>" ++ tail)

/-- The backslash character, U+005C. -/
def backslashChar : Char := Char.ofNat 92

/-- The forward-slash character, U+002F. -/
def slashChar : Char := Char.ofNat 47

/-- The double-quote character, U+0022. -/
def doubleQuoteChar : Char := Char.ofNat 34

/-- The single-quote character, U+0027. -/
def singleQuoteChar : Char := Char.ofNat 39

/-- Embedding of `ClaudeContextFormatter.format_context(documents)`: alias rewriting,
the XML block sequence, then `remove_non_printable` and the two character
replacements (backslash to slash, double quote to single quote). -/
def formatContext (aliasesCfg : Option (List (String × String)))
    (documents : List Hit) : Except PyErr String :=
  match formatBlocks 0 (replaceMetadataKeys aliasesCfg documents) with
  | .error e => .error e
  | .ok body =>
    .ok (replaceChar (replaceChar
          (removeNonPrintable ("<documents>" ++ body ++ "</documents>"))
          backslashChar slashChar) doubleQuoteChar singleQuoteChar)

/-- Embedding of `Translator.translate(query, language_code)`: resolves the target
language (Python `language_code or "en"`: `None` and the empty string
both fall back to "en"), invokes the LLM with the translation prompt
(`invoke` is a function of query and target language); a `ClientError`
is caught and returns `None`, a `ParamValidationError` is re-raised as
`ValueError`, success wraps the decoded answer. -/
def translate (invoke : String → String → Except PyErr LLMAnswer)
    (query : String) (language_code : Option String) :
    Except PyErr (Option LLMAnswer) :=
  let target_language :=
    match language_code with
    | none => "en"
    | some s => if s = "" then "en" else s
  match invoke query target_language with
  | .ok translated_query => .ok (some translated_query)
  | .error .paramValidationError => .error .valueError
  | .error .clientError => .ok none
  | .error e => .error e

/-- The data determining `BedrockHelper.build_request_body`'s output for
the answer request: prompt template id, positional values, instruction
values (the serialized JSON envelope is opaque to the orchestrator). -/
structure RequestBody where
  template_id : String
  values : List JVal
  instruction_values : List String
deriving DecidableEq

/-- Result dict of `generate_answer_text`: either the LLM's decoded
answer body or the bare `{}` returned on a `ClientError`. -/
inductive AnswerResult
  | emptyDict
  | answer (a : LLMAnswer)
deriving DecidableEq

/-- Embedding of `Chatbot.do_not_nswer(question)`: the fixed refusal payload
`{"content":[{"text": "Cannot answer to this question."}]}`. -/
def doNotAnswerPayload : LLMAnswer :=
  ⟨[⟨some "Cannot answer to this question."⟩]⟩

/-- Externally observable steps of the answering orchestrator, recorded
in execution order by the embedded `Chatbot` methods. -/
inductive Ev
  | guardrailCall (q : String)
  | retrieveCall (q : String)
  | formatCall (docs : List Hit)
  | intentCall (q : String)
  | answerCall (rb : RequestBody)
deriving DecidableEq

/-- Whether an event is a context-formatter invocation. -/
def Ev.isFormat : Ev → Bool
  | .formatCall _ => true
  | _ => false

/-- Embedding of `Chatbot.generate_answer_text(question, documents, instructions)`:
format the context, derive the query intent (dereferencing the result
without a `None` check — a parse failure therefore raises
`AttributeError`), build the `answer_question` request body and invoke
the LLM; a `ParamValidationError` is re-raised as `ValueError`, a
`ClientError` is logged and returns `{}`.  The second component is the
trace of pipeline events. -/
def generateAnswerText (aliasesCfg : Option (List (String × String)))
    (jloads : String → Except PyErr JObj)
    (intentInvoke : String → Except PyErr LLMAnswer)
    (answerInvoke : RequestBody → Except PyErr LLMAnswer)
    (question : String) (documents : List Hit) (instructions : List String) :
    Except PyErr AnswerResult × List Ev :=
  match formatContext aliasesCfg documents with
  | .error e => (.error e, [Ev.formatCall documents])
  | .ok context =>
    match getQueryIntent jloads intentInvoke question with
    | .error e => (.error e, [Ev.formatCall documents, Ev.intentCall question])
    | .ok none =>
      (.error .attributeError,
       [Ev.formatCall documents, Ev.intentCall question])
    | .ok (some query_analysis_elements) =>
      let request_body : RequestBody :=
        ⟨"answer_question",
         [.s context, query_analysis_elements.reformulated_query],
         instructions⟩
      match answerInvoke request_body with
      | .error .paramValidationError =>
        (.error .valueError,
         [Ev.formatCall documents, Ev.intentCall question,
          Ev.answerCall request_body])
      | .error .clientError =>
        (.ok .emptyDict,
         [Ev.formatCall documents, Ev.intentCall question,
          Ev.answerCall request_body])
      | .error e =>
        (.error e,
         [Ev.formatCall documents, Ev.intentCall question,
          Ev.answerCall request_body])
      | .ok answer =>
        (.ok (.answer answer),
         [Ev.formatCall documents, Ev.intentCall question,
          Ev.answerCall request_body])

/-- Embedding of `Chatbot.answer_question(input_params)`: guardrail check; if allowed,
retrieve context documents (`retriever` models
`context_retriever.retrieve_context`) and generate the answer over the
reversed document list, returning the answer with the reversed list;
if disallowed, return the fixed refusal payload with no documents. -/
def answerQuestion (ai : AiConfig)
    (guardrailInvoke : String → String → String → Except PyErr ModerationResponse)
    (aliasesCfg : Option (List (String × String)))
    (jloads : String → Except PyErr JObj)
    (intentInvoke : String → Except PyErr LLMAnswer)
    (answerInvoke : RequestBody → Except PyErr LLMAnswer)
    (retriever : String → Except PyErr (List Hit))
    (question : String) (instructions : String) :
    Except PyErr (AnswerResult × List Hit) × List Ev :=
  match isQueryAllowed ai guardrailInvoke question with
  | .error e => (.error e, [Ev.guardrailCall question])
  | .ok true =>
    match retriever question with
    | .error e =>
      (.error e, [Ev.guardrailCall question, Ev.retrieveCall question])
    | .ok retrieved_documents =>
      let gen := generateAnswerText aliasesCfg jloads intentInvoke answerInvoke
        question retrieved_documents.reverse [instructions]
      (gen.1.map (fun a => (a, retrieved_documents.reverse)),
       [Ev.guardrailCall question, Ev.retrieveCall question] ++ gen.2)
  | .ok false =>
    (.ok (.answer doNotAnswerPayload, []), [Ev.guardrailCall question])

/-- Externally observable steps of the EP hybrid retriever, recorded in
execution order. -/
inductive RetEv
  | embedCall (q : String)
  | knnCall (num : Nat)
  | translateCall (q : String)
  | preprocessCall (q : String)
  | bm25Call (q : String) (num : Nat)
  | rerankCall (q : String)
deriving DecidableEq

/-- Python truthiness of the optional `rerank_model_id` configuration
value (`None` and the empty string are both falsy). -/
def ridTruthy : Option String → Bool
  | none => false
  | some s => !(s == "")

/-- Embedding of `EpDocumentsRetriever.retrieve_context(query, include_fields=...)`:
embed the query; KNN search (20 candidates when a reranker is configured,
8 otherwise); translate the query to French, falling back to the original
query on any exception or a `None`/malformed translation result; extract
entities from the translated query; BM25 search over the entities (5
results); concatenate KNN-then-BM25 and deduplicate; optionally rerank.
Oracles: `text2vec` = `Text2VectorProcessor.get_embeddings`, `knn` =
`perform_vector_search`, `translateInvoke` = the translation LLM request,
`analyzeInvoke` = the `analyze_query` LLM request, `jloads` =
`json.loads`, `bm25` = `perform_bm25_search`, `rerankModel` = the
reranking-model invocation. -/
def retrieveContext
    (text2vec : String → Except PyErr (List ℚ))
    (knn : List ℚ → Nat → Option (List String) → Except PyErr (List Hit))
    (translateInvoke : String → String → Except PyErr LLMAnswer)
    (analyzeInvoke : String → Except PyErr LLMAnswer)
    (jloads : String → Except PyErr JObj)
    (bm25 : String → Nat → Option (List String) → Except PyErr (List Hit))
    (rerankModelId : Option String)
    (rerankModel : String → List String → Except PyErr RerankResponse)
    (query : String) (include_fields : Option (List String)) :
    Except PyErr (List Hit) × List RetEv :=
  match text2vec query with
  | .error e => (.error e, [RetEv.embedCall query])
  | .ok query_embeddings =>
    let num_results := if ridTruthy rerankModelId then 20 else 8
    match knn query_embeddings num_results include_fields with
    | .error e =>
      (.error e, [RetEv.embedCall query, RetEv.knnCall num_results])
    | .ok results_knn =>
      let translated_query :=
        match translate translateInvoke query (some "fr") with
        | .error _ => query
        | .ok none => query
        | .ok (some translation_result) =>
          match translation_result.content.head? with
          | none => query
          | some block => block.text.getD query
      match preprocessQuery jloads analyzeInvoke translated_query with
      | .error e =>
        (.error e,
         [RetEv.embedCall query, RetEv.knnCall num_results,
          RetEv.translateCall query, RetEv.preprocessCall translated_query])
      | .ok query_entities =>
        match bm25 query_entities 5 include_fields with
        | .error e =>
          (.error e,
           [RetEv.embedCall query, RetEv.knnCall num_results,
            RetEv.translateCall query, RetEv.preprocessCall translated_query,
            RetEv.bm25Call query_entities 5])
        | .ok results_bm25 =>
          let distinct_results :=
            getDistinctValues (results_knn ++ results_bm25)
          if ridTruthy rerankModelId then
            (rerankResults rerankModel translated_query distinct_results,
             [RetEv.embedCall query, RetEv.knnCall num_results,
              RetEv.translateCall query, RetEv.preprocessCall translated_query,
              RetEv.bm25Call query_entities 5,
              RetEv.rerankCall translated_query])
          else
            (.ok distinct_results,
             [RetEv.embedCall query, RetEv.knnCall num_results,
              RetEv.translateCall query, RetEv.preprocessCall translated_query,
              RetEv.bm25Call query_entities 5])

/-- C5: when `translate` returns `None` (any client error during
translation), the retrieval pipeline proceeds on the original,
untranslated query: keyword extraction receives the original query text,
the lexical search runs on the entities extracted from it, and the
request completes with the merged result set instead of failing. -/
theorem C5_translate_none_falls_back_to_original
    (text2vec : String → Except PyErr (List ℚ))
    (knn : List ℚ → Nat → Option (List String) → Except PyErr (List Hit))
    (translateInvoke : String → String → Except PyErr LLMAnswer)
    (analyzeInvoke : String → Except PyErr LLMAnswer)
    (jloads : String → Except PyErr JObj)
    (bm25 : String → Nat → Option (List String) → Except PyErr (List Hit))
    (rerankModel : String → List String → Except PyErr RerankResponse)
    (query : String) (fields : Option (List String))
    (emb : List ℚ) (knnHits bmHits : List Hit) (ents : String)
    (hemb : text2vec query = .ok emb)
    (hknn : knn emb 8 fields = .ok knnHits)
    (htr : translate translateInvoke query (some "fr") = .ok none)
    (hpre : preprocessQuery jloads analyzeInvoke query = .ok ents)
    (hbm : bm25 ents 5 fields = .ok bmHits) :
    retrieveContext text2vec knn translateInvoke analyzeInvoke jloads bm25
      none rerankModel query fields
      = (.ok (getDistinctValues (knnHits ++ bmHits)),
         [RetEv.embedCall query, RetEv.knnCall 8, RetEv.translateCall query,
          RetEv.preprocessCall query, RetEv.bm25Call ents 5]) := by
  unfold retrieveContext
  simp only [hemb, ridTruthy, Bool.false_eq_true, if_false, hknn, htr,
    hpre, hbm]

/-- Embedding oracle returning an empty vector. -/
def text2vecOk : String → Except PyErr (List ℚ) := fun _ => .ok []

/-- Vector-search oracle returning the Scenario A vector hits. -/
def knnOk : List ℚ → Nat → Option (List String) → Except PyErr (List Hit) :=
  fun _ _ _ => .ok exVec

/-- Translation LLM oracle failing with a `ClientError`. -/
def translateInvokeClientError : String → String → Except PyErr LLMAnswer :=
  fun _ _ => .error .clientError

/-- Analysis/intent LLM oracle whose reply text "oops" is not JSON. -/
def analyzeInvokeBad : String → Except PyErr LLMAnswer :=
  fun _ => .ok ⟨[⟨some "oops"⟩]⟩

/-- Intent LLM oracle whose reply text "good" decodes to the empty
object. -/
def intentInvokeGood : String → Except PyErr LLMAnswer :=
  fun _ => .ok ⟨[⟨some "good"⟩]⟩

/-- A `json.loads` oracle: rejects the malformed reply "oops", decodes any
other input to the empty object. -/
def jloadsSimple : String → Except PyErr JObj :=
  fun s => if s = "oops" then .error .jsonDecodeError else .ok []

/-- Lexical-search oracle returning the Scenario A lexical hits. -/
def bm25Ok : String → Nat → Option (List String) → Except PyErr (List Hit) :=
  fun _ _ _ => .ok exLex

theorem C5_translate_none_falls_back_to_original_witness :
    retrieveContext text2vecOk knnOk translateInvokeClientError
      analyzeInvokeBad jloadsSimple bm25Ok none modelOne "q" none
      = (.ok (getDistinctValues (exVec ++ exLex)),
         [RetEv.embedCall "q", RetEv.knnCall 8, RetEv.translateCall "q",
          RetEv.preprocessCall "q", RetEv.bm25Call "q" 5]) :=
  C5_translate_none_falls_back_to_original text2vecOk knnOk
    translateInvokeClientError analyzeInvokeBad jloadsSimple bm25Ok
    modelOne "q" none [] exVec exLex "q" rfl rfl rfl rfl rfl

/-- Answer LLM oracle that succeeds. -/
def answerInvokeOk : RequestBody → Except PyErr LLMAnswer :=
  fun _ => .ok ⟨[⟨some "an answer"⟩]⟩

/-- C2: at the failing input — an intent reply that is not JSON —
`get_query_intent` does return `None` without raising; but the caller
`generate_answer_text` then dereferences `.reformulated_query` on the
`None` result and raises `AttributeError` instead of completing the
request with the original question. -/
theorem C2_intent_parse_failure_crashes_caller :
    getQueryIntent jloadsSimple analyzeInvokeBad "question?" = .ok none
    ∧ (generateAnswerText none jloadsSimple analyzeInvokeBad answerInvokeOk
        "question?" [] []).1 = .error PyErr.attributeError := by
  exact ⟨rfl, rfl⟩

/-- C8: during answer generation, a `ClientError` from the LLM invocation
is surfaced as a recoverable failure returning the empty dict (no
exception), while a `ParamValidationError` is converted and raised as a
`ValueError`. -/
theorem C8_answer_generation_error_mapping
    (aliasesCfg : Option (List (String × String)))
    (jloads : String → Except PyErr JObj)
    (intentInvoke : String → Except PyErr LLMAnswer)
    (clientErrInvoke paramErrInvoke : RequestBody → Except PyErr LLMAnswer)
    (question : String) (documents : List Hit) (instructions : List String)
    (context : String) (qi : QueryIntent)
    (hctx : formatContext aliasesCfg documents = .ok context)
    (hqi : getQueryIntent jloads intentInvoke question = .ok (some qi))
    (hclient : ∀ rb, clientErrInvoke rb = .error .clientError)
    (hparam : ∀ rb, paramErrInvoke rb = .error .paramValidationError) :
    (generateAnswerText aliasesCfg jloads intentInvoke clientErrInvoke
      question documents instructions).1 = .ok .emptyDict
    ∧ (generateAnswerText aliasesCfg jloads intentInvoke paramErrInvoke
      question documents instructions).1 = .error PyErr.valueError := by
  constructor
  · unfold generateAnswerText
    simp only [hctx, hqi, hclient]
  · unfold generateAnswerText
    simp only [hctx, hqi, hparam]

/-- Answer LLM oracle failing with a `ClientError`. -/
def answerInvokeClientError : RequestBody → Except PyErr LLMAnswer :=
  fun _ => .error .clientError

/-- Answer LLM oracle failing with a `ParamValidationError`. -/
def answerInvokeParamError : RequestBody → Except PyErr LLMAnswer :=
  fun _ => .error .paramValidationError

theorem C8_answer_generation_error_mapping_witness :
    (generateAnswerText none jloadsSimple intentInvokeGood
      answerInvokeClientError "question?" [] []).1 = .ok .emptyDict
    ∧ (generateAnswerText none jloadsSimple intentInvokeGood
      answerInvokeParamError "question?" [] []).1 = .error PyErr.valueError :=
  C8_answer_generation_error_mapping none jloadsSimple intentInvokeGood
    answerInvokeClientError answerInvokeParamError "question?" [] []
    "<documents></documents>" ⟨.s "undefined", .s "undefined"⟩
    rfl rfl (fun _ => rfl) (fun _ => rfl)

/-- C4: if the guardrail classifies the question as not allowed,
`answer_question` returns the fixed refusal payload together with an
empty document list, and its event trace is exactly the guardrail check:
neither the retrieval pipeline nor the answer-generation LLM is invoked,
whatever those oracles would have returned. -/
theorem C4_refusal_short_circuit (ai : AiConfig)
    (guardrailInvoke : String → String → String → Except PyErr ModerationResponse)
    (aliasesCfg : Option (List (String × String)))
    (jloads : String → Except PyErr JObj)
    (intentInvoke : String → Except PyErr LLMAnswer)
    (answerInvoke : RequestBody → Except PyErr LLMAnswer)
    (retriever : String → Except PyErr (List Hit))
    (question instructions : String)
    (hg : isQueryAllowed ai guardrailInvoke question = .ok false) :
    answerQuestion ai guardrailInvoke aliasesCfg jloads intentInvoke
      answerInvoke retriever question instructions
      = (.ok (.answer doNotAnswerPayload, []), [Ev.guardrailCall question]) := by
  unfold answerQuestion
  simp only [hg]

theorem C4_refusal_short_circuit_witness :
    answerQuestion aiGuarded guardrailIntervened none jloadsSimple
      intentInvokeGood answerInvokeOk (fun _ => .ok exVec) "q" "inst"
      = (.ok (.answer doNotAnswerPayload, []), [Ev.guardrailCall "q"]) :=
  C4_refusal_short_circuit aiGuarded guardrailIntervened none jloadsSimple
    intentInvokeGood answerInvokeOk (fun _ => .ok exVec) "q" "inst" rfl

theorem generateAnswerText_format_trace
    (aliasesCfg : Option (List (String × String)))
    (jloads : String → Except PyErr JObj)
    (intentInvoke : String → Except PyErr LLMAnswer)
    (answerInvoke : RequestBody → Except PyErr LLMAnswer)
    (question : String) (documents : List Hit) (instructions : List String) :
    ((generateAnswerText aliasesCfg jloads intentInvoke answerInvoke
      question documents instructions).2).filter Ev.isFormat
      = [Ev.formatCall documents] := by
  unfold generateAnswerText
  split
  · simp [Ev.isFormat, List.filter]
  · split
    · simp [Ev.isFormat, List.filter]
    · simp [Ev.isFormat, List.filter]
    · dsimp only
      split
      · simp [Ev.isFormat, List.filter]
      · simp [Ev.isFormat, List.filter]
      · simp [Ev.isFormat, List.filter]
      · simp [Ev.isFormat, List.filter]

/-- C9: reversing twice is a no-op for the context formatter
(`format(reverse(reverse(L))) = format(L)`); and on the allowed path the
orchestrator reverses the retrieved document list exactly once before
handing it to the formatter — the trace contains exactly one formatter
call, on the reversed list — returns that reversed list, and the last
element of the reversed list is the top-ranked hit. -/
theorem C9_reverse_once_before_format (ai : AiConfig)
    (guardrailInvoke : String → String → String → Except PyErr ModerationResponse)
    (aliasesCfg : Option (List (String × String)))
    (jloads : String → Except PyErr JObj)
    (intentInvoke : String → Except PyErr LLMAnswer)
    (answerInvoke : RequestBody → Except PyErr LLMAnswer)
    (retriever : String → Except PyErr (List Hit))
    (question instructions : String) (R : List Hit)
    (hg : isQueryAllowed ai guardrailInvoke question = .ok true)
    (hr : retriever question = .ok R) :
    (∀ M : List Hit, formatContext aliasesCfg (M.reverse.reverse)
        = formatContext aliasesCfg M)
    ∧ ((answerQuestion ai guardrailInvoke aliasesCfg jloads intentInvoke
        answerInvoke retriever question instructions).2).filter Ev.isFormat
        = [Ev.formatCall R.reverse]
    ∧ (∀ a docs, (answerQuestion ai guardrailInvoke aliasesCfg jloads
        intentInvoke answerInvoke retriever question instructions).1
          = .ok (a, docs) → docs = R.reverse)
    ∧ R.reverse.getLast? = R.head? := by
  refine ⟨fun M => by rw [List.reverse_reverse], ?_, ?_, List.getLast?_reverse R⟩
  · unfold answerQuestion
    simp only [hg, hr, List.filter_append, generateAnswerText_format_trace]
    simp [Ev.isFormat, List.filter]
  · intro a docs h
    unfold answerQuestion at h
    simp only [hg, hr] at h
    cases hgen : (generateAnswerText aliasesCfg jloads intentInvoke
        answerInvoke question R.reverse [instructions]).1 with
    | error e => rw [hgen] at h; simp [Except.map] at h
    | ok a' =>
      rw [hgen] at h
      simp only [Except.map, Except.ok.injEq, Prod.mk.injEq] at h
      exact h.2.symm

theorem C9_reverse_once_before_format_witness :
    ((answerQuestion aiUnguarded guardrailIntervened none jloadsSimple
      intentInvokeGood answerInvokeOk (fun _ => .ok exVec) "q" "inst").2).filter
        Ev.isFormat = [Ev.formatCall exVec.reverse] :=
  (C9_reverse_once_before_format aiUnguarded guardrailIntervened none
    jloadsSimple intentInvokeGood answerInvokeOk (fun _ => .ok exVec)
    "q" "inst" exVec rfl rfl).2.1

end EAssistant
